import Mathlib

/-!
# Verification of the mcp-safesql SQL safety gateway (src/server.ts)

Shallow embedding of the validation/transformation pipeline of
`src/server.ts`: statement validation, relation whitelist enforcement,
row-cap rewriting, PII masking, and plan redaction/rendering, together
with the `sql.query` and `sql.explain_safe` tool handlers.

Strings are modelled as Lean `String` / `List Char`.  The JavaScript
regular expressions used by the source are embedded as executable
character-list scanners; character classes are expressed numerically on
code points (`Char.toNat`), with comments giving the character meaning.
The external collaborators (the `node-sql-parser` grammar adapter and the
database drivers) are modelled as oracle fields of an `Env` record, as
the spec treats them as external interfaces.
-/

namespace SafeSql

/-! ## Character classes (JS regex classes, on code points) -/

/-- JS `\d`: ASCII digit `0`..`9` (code points 48..57). -/
def isDigitCh (c : Char) : Bool := decide (48 ≤ c.toNat ∧ c.toNat ≤ 57)

/-- JS `\s`: whitespace class (space, tab, LF, VT, FF, CR, NBSP, and the
Unicode space characters U+1680, U+2000–U+200A, U+2028, U+2029, U+202F,
U+205F, U+3000, U+FEFF). -/
def isSpaceJS (c : Char) : Bool := decide
  (c.toNat = 32 ∨ c.toNat = 9 ∨ c.toNat = 10 ∨ c.toNat = 11 ∨ c.toNat = 12 ∨ c.toNat = 13 ∨
   c.toNat = 0xa0 ∨ c.toNat = 0x1680 ∨ (0x2000 ≤ c.toNat ∧ c.toNat ≤ 0x200a) ∨
   c.toNat = 0x2028 ∨ c.toNat = 0x2029 ∨ c.toNat = 0x202f ∨ c.toNat = 0x205f ∨
   c.toNat = 0x3000 ∨ c.toNat = 0xfeff)

/-- JS `\w` (word character): `A`-`Z`, `a`-`z`, `0`-`9`, `_`. -/
def isWordCh (c : Char) : Bool := decide
  ((65 ≤ c.toNat ∧ c.toNat ≤ 90) ∨ (97 ≤ c.toNat ∧ c.toNat ≤ 122) ∨
   (48 ≤ c.toNat ∧ c.toNat ≤ 57) ∨ c.toNat = 95)

/-- JS `[A-Za-z0-9]` (the generic-fallback masking class). -/
def isAlnumCh (c : Char) : Bool := decide
  ((65 ≤ c.toNat ∧ c.toNat ≤ 90) ∨ (97 ≤ c.toNat ∧ c.toNat ≤ 122) ∨
   (48 ≤ c.toNat ∧ c.toNat ≤ 57))

/-- JS `.` (dot without the `s` flag): any character except LF, CR,
U+2028, U+2029. -/
def isDotCls (c : Char) : Bool := decide
  (¬ (c.toNat = 10 ∨ c.toNat = 13 ∨ c.toNat = 0x2028 ∨ c.toNat = 0x2029))

/-- ASCII lower-casing of one character, as `String.toLowerCase` acts on
the ASCII inputs relevant here. -/
def lowerCh (c : Char) : Char :=
  if 65 ≤ c.toNat ∧ c.toNat ≤ 90 then Char.ofNat (c.toNat + 32) else c

/-- Lower-case a whole string, character by character. -/
def lowerStr (s : String) : String := String.mk (s.data.map lowerCh)

/-! ## Generic string helpers -/

/-- `p` holds on some suffix of the list: this is how a non-anchored JS
regex `test`/global scan visits every start position. -/
def anySuffix (p : List Char → Bool) : List Char → Bool
  | [] => p []
  | c :: rest => p (c :: rest) || anySuffix p rest

/-- `needle` is a leading run of `hay`. -/
def startsWithL : List Char → List Char → Bool
  | [], _ => true
  | _ :: _, [] => false
  | n :: ns, h :: hs => decide (n = h) && startsWithL ns hs

/-- JS `String.prototype.includes`: substring test. -/
def strIncludes (hay needle : String) : Bool :=
  anySuffix (startsWithL needle.data) hay.data

/-- List membership as a boolean, modelling JS `Set.has` on strings. -/
def memb (a : String) : List String → Bool
  | [] => false
  | b :: rest => if a = b then true else memb a rest

/-- De-duplication keeping first occurrences, modelling the iteration
order of a JS `Set` built from a list. -/
def dedupAux (seen : List String) : List String → List String
  | [] => []
  | x :: rest => if memb x seen then dedupAux seen rest else x :: dedupAux (x :: seen) rest

/-- JS `Array.prototype.join(", ")`. -/
def joinComma : List String → String
  | [] => ""
  | [s] => s
  | s :: t :: rest => s ++ ", " ++ joinComma (t :: rest)

/-- JS `Array.prototype.join("\n")`. -/
def joinNL : List String → String
  | [] => ""
  | [s] => s
  | s :: t :: rest => s ++ "\n" ++ joinNL (t :: rest)

/-- JS `String.prototype.trim`: strip leading and trailing whitespace
(the same whitespace/line-terminator set as `\s`). -/
def jsTrim (s : String) : String :=
  String.mk (((s.data.dropWhile isSpaceJS).reverse.dropWhile isSpaceJS).reverse)

/-- JS `split("::")` (the only separator the source splits on): cut the
list at every non-overlapping occurrence of two consecutive colons. -/
def splitDC : List Char → List (List Char)
  | [] => [[]]
  | ':' :: ':' :: rest => [] :: splitDC rest
  | c :: rest =>
    match splitDC rest with
    | [] => [[c]]
    | p :: ps => (c :: p) :: ps

/-- Decimal digit to character (`0`..`9`, anything else maps to `*`). -/
def digitCh : Nat → Char
  | 0 => '0' | 1 => '1' | 2 => '2' | 3 => '3' | 4 => '4'
  | 5 => '5' | 6 => '6' | 7 => '7' | 8 => '8' | 9 => '9'
  | _ => '*'

/-- Fuel-driven decimal printing accumulator (fuel `n` suffices for `n`). -/
def natDigitsAux : Nat → Nat → List Char → List Char
  | 0, n, acc => digitCh (n % 10) :: acc
  | fuel + 1, n, acc =>
    if n < 10 then digitCh n :: acc
    else natDigitsAux fuel (n / 10) (digitCh (n % 10) :: acc)

/-- Decimal rendering of a natural number, modelling JS template
interpolation of an integral number. -/
def natRepr (n : Nat) : String := String.mk (natDigitsAux n n [])

/-- Split a character list at the first occurrence of `ch`:
`some (before, after)`, or `none` when absent.  Models the first two
cells of JS `String.prototype.split`. -/
def splitAtFirst (ch : Char) : List Char → Option (List Char × List Char)
  | [] => none
  | c :: rest =>
    if c = ch then some ([], rest)
    else match splitAtFirst ch rest with
      | none => none
      | some (a, b) => some (c :: a, b)

/-! ## Row-cap rewrite (`wrapWithLimit`, server.ts:75-78) -/

/-- The tail of `/limit\s+\d+/i` matching after at least one whitespace
character has been consumed: more whitespace, then a digit. -/
def afterSpaces : List Char → Bool
  | [] => false
  | c :: rest => if isSpaceJS c then afterSpaces rest else isDigitCh c

/-- `/limit\s+\d+/i` matches starting exactly here: the five letters of
`limit` (any case), then one-plus whitespace, then one-plus digits. -/
def limitMatchAt : List Char → Bool
  | l0 :: l1 :: l2 :: l3 :: l4 :: rest =>
    decide (lowerCh l0 = 'l') && decide (lowerCh l1 = 'i') && decide (lowerCh l2 = 'm') &&
    decide (lowerCh l3 = 'i') && decide (lowerCh l4 = 't') &&
    (match rest with
     | [] => false
     | c :: r => isSpaceJS c && afterSpaces r)
  | _ => false

/-- `/limit\s+\d+/i.test(sql)` of server.ts:76: the pattern matches at
some position of the text (anywhere, not only at top level). -/
def hasLimitClause (sql : String) : Bool := anySuffix limitMatchAt sql.data

/-- server.ts:75-78: return the text unchanged when the LIMIT pattern
occurs anywhere, else wrap it as a capped outer query. -/
def wrapWithLimit (sql : String) (limit : Nat) : String :=
  if hasLimitClause sql then sql
  else "SELECT * FROM (" ++ sql ++ ") AS safe_sub LIMIT " ++ natRepr limit

/-- Refinement-claim comparison definition, following the spec words of
§4.3/C3: an explicit LIMIT bound *at the statement's top level*, i.e. a
`limit`-whitespace-digits occurrence at parenthesis depth zero (not
inside any parenthesised subquery). -/
def topScan (depth : Nat) : List Char → Bool
  | [] => false
  | c :: rest =>
    (decide (depth = 0) && limitMatchAt (c :: rest)) ||
    (if c = '(' then topScan (depth + 1) rest
     else if c = ')' then topScan (depth - 1) rest
     else topScan depth rest)

/-- Spec-side predicate for C3: the statement text has a LIMIT clause at
its top level (parenthesis depth zero). -/
def hasTopLevelLimitSpec (sql : String) : Bool := topScan 0 sql.data

/-! ## PII detection predicates (server.ts:81-90) -/

/-- `looksLikeEmail` (server.ts:81): `/^[^@\s]+@[^@\s]+\.[^@\s]+$/`.
The local part is everything before the first `@`; it must be nonempty
and free of `@`/whitespace; the remainder must be nonempty, free of
`@`/whitespace, and contain a dot that is neither its first nor its last
character. -/
def noAtNoSpace (l : List Char) : Bool := l.all (fun c => !(decide (c = '@')) && !(isSpaceJS c))

/-- There is a `.` in the list with at least one character after it. -/
def dotThenMore : List Char → Bool
  | c :: d :: rest => decide (c = '.') || dotThenMore (d :: rest)
  | _ => false

/-- The list has a dot at a position that is neither first nor last. -/
def hasInteriorDot : List Char → Bool
  | [] => false
  | _ :: rest => dotThenMore rest

def looksLikeEmail (v : String) : Bool :=
  match splitAtFirst '@' v.data with
  | none => false
  | some (u, d) =>
    decide (u ≠ []) && noAtNoSpace u && noAtNoSpace d && hasInteriorDot d

/-- At least `k` characters of the phone class `[\d\-\s().]` at the head. -/
def phoneClassRun : Nat → List Char → Bool
  | 0, _ => true
  | _ + 1, [] => false
  | k + 1, c :: rest =>
    (isDigitCh c || decide (c = '-') || isSpaceJS c || decide (c = '(') || decide (c = ')') ||
      decide (c = '.')) && phoneClassRun k rest

/-- `/(\+?\d[\d\-\s().]{6,})/` matches starting exactly here. -/
def phoneMatchAt : List Char → Bool
  | '+' :: c :: rest => isDigitCh c && phoneClassRun 6 rest
  | c :: rest => isDigitCh c && phoneClassRun 6 rest
  | [] => false

/-- `looksLikePhone` (server.ts:82): the phone pattern matches somewhere. -/
def looksLikePhone (v : String) : Bool := anySuffix phoneMatchAt v.data

/-- `looksLikeSSN` (server.ts:83): `/^\d{3}-\d{2}-\d{4}$/`, anchored. -/
def looksLikeSSN (v : String) : Bool :=
  match v.data with
  | [a, b, c, h1, d, e, h2, f, g, h, i] =>
    isDigitCh a && isDigitCh b && isDigitCh c && decide (h1 = '-') &&
    isDigitCh d && isDigitCh e && decide (h2 = '-') &&
    isDigitCh f && isDigitCh g && isDigitCh h && isDigitCh i
  | _ => false

/-- `shouldMaskByColumn` (server.ts:85-90). -/
def shouldMaskByColumn (col : String) : Bool :=
  let c := lowerStr col
  strIncludes c "email" || strIncludes c "phone" || strIncludes c "mobile" ||
  (strIncludes c "contact" && strIncludes c "number") ||
  strIncludes c "ssn" || (strIncludes c "social" && strIncludes c "security")

/-! ## Maskers (server.ts:92-100) -/

/-- `value.replace(/.(?=.{2})/g, "*")`: mask every (dot-class) character
that is followed by two further dot-class characters, i.e. all but the
last two characters of an ordinary line. -/
def maskButLast2 : List Char → List Char
  | [] => []
  | [a] => [a]
  | [a, b] => [a, b]
  | a :: b :: c :: rest =>
    (if isDotCls a && isDotCls b && isDotCls c then '*' else a) :: maskButLast2 (b :: c :: rest)

/-- The lookahead `(?=.*\.)`: a run of dot-class characters reaching a
literal `.` ahead in the list. -/
def dotAheadScan : List Char → Bool
  | [] => false
  | c :: rest => decide (c = '.') || (isDotCls c && dotAheadScan rest)

/-- `d.replace(/(?<=.).(?=.*\.)/g, "*")`, position by position: a
character is masked when some character precedes it (lookbehind on the
original string), it is dot-class, and a literal dot lies ahead.
`prev` is the original character immediately before the head. -/
def maskDomainAux (prev : Char) : List Char → List Char
  | [] => []
  | c :: rest =>
    (if isDotCls prev && isDotCls c && dotAheadScan rest then '*' else c) ::
      maskDomainAux c rest

/-- The domain-masking replace of server.ts:96: the first character has
no lookbehind and is always kept. -/
def maskDomainStr : List Char → List Char
  | [] => []
  | c :: rest => c :: maskDomainAux c rest

/-- `maskEmail` (server.ts:92-98).  `split("@")` is modelled by taking
the text before the first `@` as `u` and the text between the first and
second `@` (or to the end) as `d`; `if (!d)` is the undefined/empty
branch. -/
def maskEmail (value : String) : String :=
  match splitAtFirst '@' value.data with
  | none => String.mk (maskButLast2 value.data)
  | some (u, rest) =>
    let d := match splitAtFirst '@' rest with
      | some (d1, _) => d1
      | none => rest
    if d = [] then String.mk (maskButLast2 value.data)
    else
      let uM := if u.length ≤ 2 then List.replicate u.length '*'
        else u.take 1 ++ List.replicate (u.length - 2) '*' ++ u.drop (u.length - 1)
      String.mk (uM ++ '@' :: maskDomainStr d)

/-- `maskPhone` (server.ts:99): `value.replace(/\d(?=\d{2}\b)/g, "*")` —
a digit is masked when the two following characters are digits and a
word boundary follows them. -/
def maskPhoneL : List Char → List Char
  | a :: b :: c :: rest =>
    (if isDigitCh a && isDigitCh b && isDigitCh c &&
        (match rest with | [] => true | d :: _ => !(isWordCh d)) then '*' else a) ::
      maskPhoneL (b :: c :: rest)
  | l => l

def maskPhone (value : String) : String := String.mk (maskPhoneL value.data)

/-- `maskSSN` (server.ts:100): `value.replace(/^\d{3}-\d{2}/, "***-**")`,
an anchored, non-global replace of the 6-character prefix. -/
def maskSSN (value : String) : String :=
  match value.data with
  | a :: b :: c :: h1 :: d :: e :: rest =>
    if isDigitCh a && isDigitCh b && isDigitCh c && decide (h1 = '-') &&
       isDigitCh d && isDigitCh e then
      String.mk ('*' :: '*' :: '*' :: '-' :: '*' :: '*' :: rest)
    else value
  | _ => value

/-- The generic fallback `v.replace(/[A-Za-z0-9]/g, "*")` (server.ts:108). -/
def genericMask (value : String) : String :=
  String.mk (value.data.map (fun c => if isAlnumCh c then '*' else c))

/-! ## Values, rows, maskValue/maskRows (server.ts:102-119) -/

/-- A result-cell value: null, string, number or boolean (§3 ResultRow).
The numeric payload is opaque to the whole pipeline (only strings are
ever inspected), so it is carried as an `Int`. -/
inductive Value where
  | vnull
  | vstr (s : String)
  | vnum (n : Int)
  | vbool (b : Bool)
deriving DecidableEq

/-- A result row: ordered mapping from column name to value. -/
def Row := List (String × Value)
deriving instance DecidableEq for Row

/-- `maskValue` (server.ts:102-111): non-strings pass through; a string
is masked when the column-name signal or any shape signal fires, by the
first applicable masker in source order (email, then SSN, then phone,
then the generic fallback). -/
def maskValue (col : String) (v : Value) : Value :=
  match v with
  | .vstr s =>
    if shouldMaskByColumn col || looksLikeEmail s || looksLikePhone s || looksLikeSSN s then
      if looksLikeEmail s then .vstr (maskEmail s)
      else if looksLikeSSN s then .vstr (maskSSN s)
      else if looksLikePhone s then .vstr (maskPhone s)
      else .vstr (genericMask s)
    else .vstr s
  | other => other

/-- One row of `maskRows` (server.ts:114-118): rebuild the row with the
same keys in the same order, masking each value against its key. -/
def maskRow (r : Row) : Row := r.map (fun kv => (kv.1, maskValue kv.1 kv.2))

/-- `maskRows` (server.ts:113-119). -/
def maskRows (rows : List Row) : List Row := rows.map maskRow

/-- Comparison definition for C6, following the spec's stated masker
priority: SSN pattern, then email pattern, then phone pattern, then the
generic fallback. -/
def selectMaskerSpec (s : String) : String :=
  if looksLikeSSN s then maskSSN s
  else if looksLikeEmail s then maskEmail s
  else if looksLikePhone s then maskPhone s
  else genericMask s

/-! ## Spec-side masking shapes for the amended C5 -/

/-- Keep only the last element of a list, masking all before it. -/
def maskInterior : List Char → List Char
  | [] => []
  | [a] => [a]
  | _ :: b :: rest => '*' :: maskInterior (b :: rest)

/-- Amended local-part rule: fully mask when the length is ≤ 2;
otherwise keep the first and last characters and mask the interior. -/
def uMaskSpec (u : List Char) : List Char :=
  if u.length ≤ 2 then List.replicate u.length '*'
  else match u with
    | [] => []
    | c :: rest => c :: maskInterior rest

/-- Some character of the list is a literal dot. -/
def hasDotB (l : List Char) : Bool := l.any (fun c => decide (c = '.'))

/-- Amended domain rule, tail part: a character is masked exactly when a
dot occurs strictly later in the domain. -/
def dMaskSpecAux : List Char → List Char
  | [] => []
  | c :: rest => (if hasDotB rest then '*' else c) :: dMaskSpecAux rest

/-- Amended domain rule: the first character of the domain is kept;
every later character — including earlier dot separators — is masked
exactly when some strictly-later character is a dot, so the last dot and
the final label survive. -/
def dMaskSpec : List Char → List Char
  | [] => []
  | c :: rest => c :: dMaskSpecAux rest

/-! ## Grammar adapter, relation extraction, validation
(server.ts:43-73) -/

/-- The parsed statement object, as far as the validator inspects it:
`(ast as any)?.type` may be absent. -/
structure SqlAst where
  type : Option String
deriving DecidableEq

/-- Outcome of `parser.astify(sql, {database: dialect})`: a thrown parse
error, an array of statements, or a single statement object. -/
inductive AstResult where
  | failure (msg : String)
  | multiple (stmts : List SqlAst)
  | single (stmt : SqlAst)
deriving DecidableEq

/-- The process environment and the external collaborators (§6): the
startup config, the grammar adapter (`astify`/`tableList` already closed
over the active dialect), and the per-backend execution adapters, whose
outcome is the resolution or rejection of the single driver call. -/
structure Env where
  dbType : String
  safeViews : List String
  maxRows : Nat
  astify : String → AstResult
  tableList : String → List String
  sqliteExec : String → Except String (List Row)
  pgExec : String → Except String (List Row)

/-- `assertSelectOnly` (server.ts:48-53): parse errors propagate; an
array result is rejected; a single statement must have `type`
lower-casing to `select`. -/
def assertSelectOnly (env : Env) (sql : String) : Except String Unit :=
  match env.astify sql with
  | .failure msg => .error msg
  | .multiple _ => .error "Only one statement allowed."
  | .single a =>
    match a.type with
    | some t => if lowerStr t = "select" then .ok () else .error "Only SELECT queries are allowed."
    | none => .error "Only SELECT queries are allowed."

/-- Normalization of one `tableList` entry (server.ts:57-61): split on
`::`; the schema is the second cell when truthy and not `"null"`; the
table is the third cell, else the second, else `""`; the result is the
lower-cased, schema-qualified name. -/
def truthyOr (a : Option String) (b : String) : String :=
  match a with
  | some s => if s = "" then b else s
  | none => b

def normalizeRef (s : String) : String :=
  let parts := (splitDC s.data).map String.mk
  let schema : Option String :=
    match parts.get? 1 with
    | some p => if p ≠ "" ∧ p ≠ "null" then some p else none
    | none => none
  let table : String := truthyOr (parts.get? 2) (truthyOr (parts.get? 1) "")
  lowerStr (match schema with
    | some sc => sc ++ "." ++ table
    | none => table)

/-- `tablesUsed` (server.ts:55-63): normalize every extracted reference
and drop falsy (empty) names. -/
def tablesUsed (env : Env) (sql : String) : List String :=
  ((env.tableList sql).map normalizeRef).filter (fun s => s ≠ "")

/-- First element of `l` that is not in `allowed` (the loop of
server.ts:68-72). -/
def firstNotAllowed (allowed : List String) : List String → Option String
  | [] => none
  | n :: rest => if memb n allowed then firstNotAllowed allowed rest else some n

/-- The `ForbiddenRelationError` message of server.ts:70. -/
def forbiddenMsg (name : String) (allowed : List String) : String :=
  "\"" ++ name ++ "\" is not whitelisted. Allowed views: " ++ joinComma allowed

/-- `assertWhitelisted` (server.ts:65-73): iterate the de-duplicated
used set and fail on the first name outside the whitelist set. -/
def assertWhitelisted (env : Env) (sql : String) : Except String Unit :=
  let used := dedupAux [] (tablesUsed env sql)
  let allowed := dedupAux [] env.safeViews
  match firstNotAllowed allowed used with
  | some n => .error (forbiddenMsg n allowed)
  | none => .ok ()

/-! ## Plan redaction and rendering (server.ts:124-145, 232-233) -/

/-- A redacted plan node: operator label, optional estimates, children. -/
inductive PlanNode where
  | mk (op : String) (estimatedRows : Option Nat) (totalCost : Option Nat)
       (children : List PlanNode)

/-- `"  ".repeat(depth)`. -/
def padFor (depth : Nat) : String := String.mk (List.replicate (2 * depth) ' ')

mutual

/-- `formatTree` (server.ts:140-145): one `- <op>` line per node with
optional `(rows≈N)` / `(cost≈N)` suffixes, children one level deeper,
joined by newlines. -/
def formatTree : PlanNode → Nat → String
  | PlanNode.mk op er tc children, depth =>
    let head := padFor depth ++ "- " ++ op ++
      (match er with | some n => " (rows≈" ++ natRepr n ++ ")" | none => "") ++
      (match tc with | some n => " (cost≈" ++ natRepr n ++ ")" | none => "")
    joinNL (head :: formatKids children (depth + 1))

def formatKids : List PlanNode → Nat → List String
  | [], _ => []
  | c :: rest, depth => formatTree c depth :: formatKids rest depth

end

/-- The fixed degraded-fidelity tree of server.ts:232. -/
def genericTree : PlanNode := PlanNode.mk "Select" none none [PlanNode.mk "Scan" none none []]

/-! ## Tool handlers (server.ts:167-242) -/

/-- One content block of a tool response.  The MCP content union can
carry text or structured JSON; this code produces `text` blocks and one
`json` block of shape `{rows, rowsReturned}`.  A `jsonTree` variant is
included to express whether a response carries a plan tree payload. -/
inductive Content where
  | text (s : String)
  | jsonRows (rows : List Row) (rowsReturned : Nat)
  | jsonTree (tree : PlanNode)

/-- Observable events of one `sql.query` call, in order: pipeline stages
entered and resource acquisitions/releases of the execution step. -/
inductive Ev where
  | validate | whitelist | rowcap
  | sqliteOpen | sqliteClose | pgConnect | pgEnd
  | execute | mask
deriving DecidableEq

/-- The `sql.query` handler (server.ts:179-208), with an event trace.
The sqlite branch mirrors server.ts:190-197: the handle is opened, the
driver call is awaited, and `db.close()` runs only after a successful
resolution — a rejection propagates before the close line.  The
postgres branch mirrors `withPgClient` (server.ts:35-40): connect, run,
and an `end` in a `finally`, so the client is released on success and on
error alike. -/
def runQuery (env : Env) (sqlIn : String) : Except String (List Content) × List Ev :=
  let raw := jsTrim sqlIn
  match assertSelectOnly env raw with
  | .error e => (.error e, [.validate])
  | .ok () =>
    match assertWhitelisted env raw with
    | .error e => (.error e, [.validate, .whitelist])
    | .ok () =>
      let safeSql := wrapWithLimit raw env.maxRows
      if env.dbType = "sqlite" then
        match env.sqliteExec safeSql with
        | .error e => (.error e, [.validate, .whitelist, .rowcap, .sqliteOpen, .execute])
        | .ok rows =>
          let masked := maskRows rows
          (.ok [.jsonRows masked masked.length],
           [.validate, .whitelist, .rowcap, .sqliteOpen, .execute, .sqliteClose, .mask])
      else if env.dbType = "postgres" then
        match env.pgExec safeSql with
        | .error e => (.error e, [.validate, .whitelist, .rowcap, .pgConnect, .execute, .pgEnd])
        | .ok rows =>
          let masked := maskRows rows
          (.ok [.jsonRows masked masked.length],
           [.validate, .whitelist, .rowcap, .pgConnect, .execute, .pgEnd, .mask])
      else (.error ("Unsupported DB_TYPE: " ++ env.dbType), [.validate, .whitelist, .rowcap])

/-- The fixed note line of server.ts:237. -/
def beginnerNote : String := "This is a redacted, generic operator outline (beginner mode):"

/-- The `sql.explain_safe` handler (server.ts:224-241): after the same
two validation stages, it always renders the fixed generic tree and
returns two text blocks. -/
def explainSafeHandler (env : Env) (sqlIn : String) : Except String (List Content) :=
  let raw := jsTrim sqlIn
  match assertSelectOnly env raw with
  | .error e => .error e
  | .ok () =>
    match assertWhitelisted env raw with
    | .error e => .error e
    | .ok () =>
      .ok [.text beginnerNote, .text (formatTree genericTree 0)]

/-- A content block is a plain text block (carries no structured
payload such as a plan tree). -/
def isTextContent : Content → Bool
  | .text _ => true
  | _ => false

/-! ## Concrete environments used to instantiate the theorems

Each models the default configuration (`SAFE_VIEWS=safe_users_v`,
`MAX_ROWS=200`) with grammar-adapter and driver oracles fixed to the
scenario at hand. -/

/-- Scenario B environment: the parser yields two top-level statements. -/
def envMulti : Env :=
  { dbType := "sqlite"
    safeViews := ["safe_users_v"]
    maxRows := 200
    astify := fun _ => .multiple [⟨some "select"⟩, ⟨some "drop"⟩]
    tableList := fun _ => ["select::null::users"]
    sqliteExec := fun _ => .ok []
    pgExec := fun _ => .ok [] }

/-- Scenario C environment: the single SELECT touches `secret_table`. -/
def envForbidden : Env :=
  { dbType := "sqlite"
    safeViews := ["safe_users_v"]
    maxRows := 200
    astify := fun _ => .single ⟨some "SELECT"⟩
    tableList := fun _ => ["select::null::secret_table"]
    sqliteExec := fun _ => .ok []
    pgExec := fun _ => .ok [] }

/-- Sqlite backend whose single driver call rejects. -/
def envSqliteErr : Env :=
  { dbType := "sqlite"
    safeViews := ["safe_users_v"]
    maxRows := 200
    astify := fun _ => .single ⟨some "SELECT"⟩
    tableList := fun _ => ["select::null::safe_users_v"]
    sqliteExec := fun _ => .error "SQLITE_IOERR: disk I/O error"
    pgExec := fun _ => .ok [] }

/-- Postgres backend whose single driver call rejects. -/
def envPgErr : Env :=
  { dbType := "postgres"
    safeViews := ["safe_users_v"]
    maxRows := 200
    astify := fun _ => .single ⟨some "SELECT"⟩
    tableList := fun _ => ["select::null::safe_users_v"]
    sqliteExec := fun _ => .ok []
    pgExec := fun _ => .error "connection terminated" }

/-- A whitelisted SELECT against the sqlite backend that succeeds with
one row. -/
def envQueryOk : Env :=
  { dbType := "sqlite"
    safeViews := ["safe_users_v"]
    maxRows := 200
    astify := fun _ => .single ⟨some "SELECT"⟩
    tableList := fun _ => ["select::null::safe_users_v"]
    sqliteExec := fun _ => .ok [[("id", .vnum 1), ("email", .vstr "john.doe@example.com")]]
    pgExec := fun _ => .ok [] }

/-- A whitelisted SELECT environment for the explain handler. -/
def envExplain : Env :=
  { dbType := "sqlite"
    safeViews := ["safe_users_v"]
    maxRows := 200
    astify := fun _ => .single ⟨some "SELECT"⟩
    tableList := fun _ => ["select::null::safe_users_v"]
    sqliteExec := fun _ => .ok []
    pgExec := fun _ => .ok [] }

/-! # Theorems -/

/-! ## Membership and whitelist lemmas -/

theorem memb_iff (a : String) (l : List String) : memb a l = true ↔ a ∈ l := by
  induction l with
  | nil => simp [memb]
  | cons b rest ih => by_cases h : a = b <;> simp [memb, h, ih]

theorem mem_dedupAux (a : String) (l : List String) :
    ∀ seen, a ∈ dedupAux seen l ↔ a ∈ l ∧ a ∉ seen := by
  induction l with
  | nil => intro seen; simp [dedupAux]
  | cons x rest ih =>
    intro seen
    rw [dedupAux]
    by_cases hx : memb x seen = true
    · have hxs : x ∈ seen := (memb_iff _ _).1 hx
      rw [if_pos hx, ih]
      simp only [List.mem_cons]
      constructor
      · exact fun h => ⟨Or.inr h.1, h.2⟩
      · rintro ⟨rfl | h1, h2⟩
        · exact absurd hxs h2
        · exact ⟨h1, h2⟩
    · have hxs : x ∉ seen := fun hmem => hx ((memb_iff _ _).2 hmem)
      rw [if_neg hx]
      simp only [List.mem_cons, ih (x :: seen)]
      constructor
      · rintro (rfl | ⟨h1, h2⟩)
        · exact ⟨Or.inl rfl, hxs⟩
        · exact ⟨Or.inr h1, fun hs => h2 (Or.inr hs)⟩
      · rintro ⟨rfl | h1, h2⟩
        · exact Or.inl rfl
        · by_cases hax : a = x
          · exact Or.inl hax
          · exact Or.inr ⟨h1, fun hs => (by rcases hs with e | m; exact hax e; exact h2 m)⟩

theorem firstNotAllowed_eq_none (allowed l : List String) :
    firstNotAllowed allowed l = none ↔ ∀ n ∈ l, memb n allowed = true := by
  induction l with
  | nil => simp [firstNotAllowed]
  | cons n rest ih => by_cases h : memb n allowed = true <;> simp [firstNotAllowed, h, ih]

theorem firstNotAllowed_eq_some (allowed : List String) :
    ∀ l m, firstNotAllowed allowed l = some m → m ∈ l ∧ memb m allowed = false := by
  intro l
  induction l with
  | nil => intro m h; simp [firstNotAllowed] at h
  | cons n rest ih =>
    intro m h
    rw [firstNotAllowed] at h
    by_cases hn : memb n allowed = true
    · rw [if_pos hn] at h
      obtain ⟨h1, h2⟩ := ih m h
      exact ⟨List.mem_cons_of_mem _ h1, h2⟩
    · rw [if_neg hn] at h
      cases h
      exact ⟨List.mem_cons_self _ _, by simpa using hn⟩

/-- C2: the whitelist check succeeds exactly when every normalized
relation reference is whitelisted (vacuously on an empty reference set),
and on failure the error message names one of the actual offending
relations together with the allowed set. -/
theorem whitelist_check_correct (env : Env) (sql : String) :
    (assertWhitelisted env sql = .ok () ↔ ∀ n ∈ tablesUsed env sql, n ∈ env.safeViews)
    ∧ ∀ msg, assertWhitelisted env sql = .error msg →
        ∃ n, n ∈ tablesUsed env sql ∧ n ∉ env.safeViews ∧
          msg = forbiddenMsg n (dedupAux [] env.safeViews) := by
  unfold assertWhitelisted
  cases hf : firstNotAllowed (dedupAux [] env.safeViews) (dedupAux [] (tablesUsed env sql)) with
  | none =>
    simp only [hf]
    constructor
    · constructor
      · intro _ n hn
        have h1 : n ∈ dedupAux [] (tablesUsed env sql) :=
          (mem_dedupAux n _ []).2 ⟨hn, by simp⟩
        have h2 := (firstNotAllowed_eq_none _ _).1 hf n h1
        exact ((mem_dedupAux n _ []).1 ((memb_iff _ _).1 h2)).1
      · intro _; trivial
    · intro msg h; cases h
  | some m =>
    simp only [hf]
    obtain ⟨hm, hmemb⟩ := firstNotAllowed_eq_some _ _ _ hf
    have hmt : m ∈ tablesUsed env sql := ((mem_dedupAux m _ []).1 hm).1
    have hmna : m ∉ env.safeViews := by
      intro hsv
      have : memb m (dedupAux [] env.safeViews) = true :=
        (memb_iff _ _).2 ((mem_dedupAux m _ []).2 ⟨hsv, by simp⟩)
      rw [this] at hmemb; cases hmemb
    constructor
    · constructor
      · intro h; cases h
      · intro hall
        exact absurd (hall m hmt) hmna
    · intro msg h
      cases h
      exact ⟨m, hmt, hmna, rfl⟩

/-- Witness for C2 at Scenario C: `SELECT * FROM secret_table` with
whitelist `[safe_users_v]` fails naming `secret_table`. -/
theorem whitelist_check_correct_witness :
    assertWhitelisted envForbidden "SELECT * FROM secret_table" =
      .error "\"secret_table\" is not whitelisted. Allowed views: safe_users_v"
    ∧ ∃ n, n ∈ tablesUsed envForbidden "SELECT * FROM secret_table"
        ∧ n ∉ envForbidden.safeViews
        ∧ "\"secret_table\" is not whitelisted. Allowed views: safe_users_v" =
            forbiddenMsg n (dedupAux [] envForbidden.safeViews) :=
  ⟨rfl, (whitelist_check_correct envForbidden "SELECT * FROM secret_table").2 _ rfl⟩

/-! ## Statement validation ordering (C1) -/

/-- C1: when the parser yields more than one top-level statement, the
query call fails with the multiple-statements error during validation,
and neither the whitelist stage nor any execution stage (nor any
connection acquisition) is ever entered. -/
theorem multi_statement_rejected (env : Env) (sql : String) (stmts : List SqlAst)
    (hast : env.astify (jsTrim sql) = .multiple stmts) (_hlen : 2 ≤ stmts.length) :
    (runQuery env sql).1 = .error "Only one statement allowed."
    ∧ (runQuery env sql).2 = [Ev.validate]
    ∧ Ev.whitelist ∉ (runQuery env sql).2
    ∧ Ev.execute ∉ (runQuery env sql).2
    ∧ Ev.sqliteOpen ∉ (runQuery env sql).2
    ∧ Ev.pgConnect ∉ (runQuery env sql).2 := by
  have h : runQuery env sql = (.error "Only one statement allowed.", [Ev.validate]) := by
    simp only [runQuery, assertSelectOnly, hast]
  rw [h]
  exact ⟨rfl, rfl, by decide, by decide, by decide, by decide⟩

/-- Witness for C1 at Scenario B. -/
theorem multi_statement_rejected_witness :
    envMulti.astify (jsTrim "SELECT * FROM users; DROP TABLE users;") =
      .multiple [⟨some "select"⟩, ⟨some "drop"⟩]
    ∧ (runQuery envMulti "SELECT * FROM users; DROP TABLE users;").1 =
        .error "Only one statement allowed."
    ∧ Ev.execute ∉ (runQuery envMulti "SELECT * FROM users; DROP TABLE users;").2 :=
  ⟨rfl,
   (multi_statement_rejected envMulti _ _ rfl (by decide)).1,
   (multi_statement_rejected envMulti _ _ rfl (by decide)).2.2.2.1⟩

/-! ## Row-cap rewrite lemmas (C3, C7) -/

theorem strData_append (a b : String) : (a ++ b).data = a.data ++ b.data := by
  cases a; cases b; rfl

theorem anySuffix_head (p : List Char → Bool) (l : List Char) (h : p l = true) :
    anySuffix p l = true := by
  cases l <;> simp [anySuffix, h]

theorem anySuffix_cons (p : List Char → Bool) (c : Char) (l : List Char)
    (h : anySuffix p l = true) : anySuffix p (c :: l) = true := by
  simp [anySuffix, h]

theorem anySuffix_append_right (p : List Char → Bool) (l1 l2 : List Char)
    (h : anySuffix p l2 = true) : anySuffix p (l1 ++ l2) = true := by
  induction l1 with
  | nil => simpa using h
  | cons c rest ih => simp [anySuffix, ih]

theorem digitCh_digit (d : Nat) (h : d < 10) : isDigitCh (digitCh d) = true := by
  interval_cases d <;> decide

theorem natDigitsAux_head (fuel : Nat) :
    ∀ n acc, ∃ d t, natDigitsAux fuel n acc = d :: t ∧ isDigitCh d = true := by
  induction fuel with
  | zero =>
    intro n acc
    exact ⟨digitCh (n % 10), acc, rfl, digitCh_digit _ (Nat.mod_lt _ (by decide))⟩
  | succ fuel ih =>
    intro n acc
    by_cases h : n < 10
    · exact ⟨digitCh n, acc, by simp [natDigitsAux, h], digitCh_digit _ h⟩
    · obtain ⟨d, t, h1, h2⟩ := ih (n / 10) (digitCh (n % 10) :: acc)
      exact ⟨d, t, by simp [natDigitsAux, h, h1], h2⟩

theorem natRepr_head (n : Nat) : ∃ d t, (natRepr n).data = d :: t ∧ isDigitCh d = true := by
  obtain ⟨d, t, h1, h2⟩ := natDigitsAux_head n n []
  exact ⟨d, t, by simp [natRepr, h1], h2⟩

theorem digit_not_space (c : Char) (h : isDigitCh c = true) : isSpaceJS c = false := by
  have hn : 48 ≤ c.toNat ∧ c.toNat ≤ 57 := of_decide_eq_true h
  simp only [isSpaceJS, decide_eq_false_iff_not]
  omega

theorem limitMatchAt_head (R : List Char) (h : afterSpaces R = true) :
    limitMatchAt ('L' :: 'I' :: 'M' :: 'I' :: 'T' :: ' ' :: R) = true := by
  show (decide (lowerCh 'L' = 'l') && decide (lowerCh 'I' = 'i') && decide (lowerCh 'M' = 'm') &&
    decide (lowerCh 'I' = 'i') && decide (lowerCh 'T' = 't') &&
    (isSpaceJS ' ' && afterSpaces R)) = true
  rw [h]
  decide

/-- The wrapper text produced by `wrapWithLimit` always matches the
LIMIT pattern (it ends in `LIMIT <digits>`). -/
theorem hasLimit_wrapped (sql : String) (cap : Nat) :
    hasLimitClause ("SELECT * FROM (" ++ sql ++ ") AS safe_sub LIMIT " ++ natRepr cap) = true := by
  obtain ⟨d, t, hd, hdig⟩ := natRepr_head cap
  have hAfter : afterSpaces (natRepr cap).data = true := by
    rw [hd]
    simp [afterSpaces, digit_not_space d hdig, hdig]
  unfold hasLimitClause
  simp only [strData_append, List.append_assoc, List.cons_append, List.nil_append]
  repeat apply anySuffix_cons
  apply anySuffix_append_right
  apply anySuffix_cons; apply anySuffix_cons; apply anySuffix_cons; apply anySuffix_cons
  apply anySuffix_cons; apply anySuffix_cons; apply anySuffix_cons; apply anySuffix_cons
  apply anySuffix_cons; apply anySuffix_cons; apply anySuffix_cons; apply anySuffix_cons
  apply anySuffix_cons; apply anySuffix_cons
  exact anySuffix_head _ _ (limitMatchAt_head _ hAfter)

/-- The wrapper text is never equal to the original statement (it is
strictly longer). -/
theorem wrapped_ne (sql : String) (cap : Nat) :
    ("SELECT * FROM (" ++ sql ++ ") AS safe_sub LIMIT " ++ natRepr cap) ≠ sql := by
  intro h
  have hlen := congrArg (fun s => s.data.length) h
  simp only [strData_append, List.length_append, List.length_cons, List.length_nil] at hlen
  omega

/-- C7: the row-cap rewrite is idempotent (textually, hence also with
respect to the enforced row count): re-applying `wrapWithLimit` to an
already-rewritten statement returns it unchanged, because the wrapper
itself contains a `LIMIT <cap>` clause matching the guard pattern. -/
theorem rowcap_idempotent (sql : String) (cap : Nat) :
    wrapWithLimit (wrapWithLimit sql cap) cap = wrapWithLimit sql cap := by
  by_cases h : hasLimitClause sql = true
  · simp [wrapWithLimit, h]
  · have hW := hasLimit_wrapped sql cap
    simp [wrapWithLimit, h, hW]

/-- Counterexample to C3 as stated: this statement has its only LIMIT
clause inside a parenthesised subquery — not at top level — yet
`wrapWithLimit` returns it unchanged, so "unchanged exactly when the
statement has a top-level LIMIT bound" fails. -/
theorem rowcap_toplevel_counterexample :
    wrapWithLimit "SELECT * FROM (SELECT * FROM t LIMIT 5) AS s" 200 =
      "SELECT * FROM (SELECT * FROM t LIMIT 5) AS s"
    ∧ hasTopLevelLimitSpec "SELECT * FROM (SELECT * FROM t LIMIT 5) AS s" = false := by
  exact ⟨by decide, by decide⟩

/-- C3 (amended): `wrapWithLimit` returns the statement unchanged
exactly when the text contains a substring matching `/limit\s+\d+/i`
anywhere (not only at top level); otherwise it returns the original
wrapped as `SELECT * FROM (sql) AS safe_sub LIMIT cap`. -/
theorem rowcap_rewrite_amended (sql : String) (cap : Nat) :
    (wrapWithLimit sql cap = sql ↔ hasLimitClause sql = true)
    ∧ (hasLimitClause sql = false →
        wrapWithLimit sql cap =
          "SELECT * FROM (" ++ sql ++ ") AS safe_sub LIMIT " ++ natRepr cap) := by
  by_cases h : hasLimitClause sql = true
  · refine ⟨⟨fun _ => h, fun _ => by simp [wrapWithLimit, h]⟩, fun hf => ?_⟩
    rw [h] at hf; cases hf
  · have hf : hasLimitClause sql = false := by simpa using h
    refine ⟨⟨fun heq => ?_, fun ht => absurd ht h⟩, fun _ => by simp [wrapWithLimit, hf]⟩
    rw [wrapWithLimit, if_neg h] at heq
    exact absurd heq (wrapped_ne sql cap)

/-- Witness for the amended C3: a statement with no LIMIT pattern gets
wrapped with the cap of 200. -/
theorem rowcap_rewrite_amended_witness :
    hasLimitClause "SELECT id FROM safe_users_v" = false
    ∧ wrapWithLimit "SELECT id FROM safe_users_v" 200 =
        "SELECT * FROM (" ++ "SELECT id FROM safe_users_v" ++ ") AS safe_sub LIMIT " ++ natRepr 200 :=
  ⟨by decide, (rowcap_rewrite_amended "SELECT id FROM safe_users_v" 200).2 (by decide)⟩

/-! ## Phone masking (C4) -/

/-- C4 evaluated at a failing input: the column signal fires and the
phone masker is selected, but the output masks only the digit three
places before the end of each digit run — the regex
`/\d(?=\d{2}\b)/g` requires a word boundary right after the next two
digits — instead of masking every digit except the last two
(`***-***-**67`) as the claim states. -/
theorem phone_mask_bug :
    shouldMaskByColumn "phone" = true
    ∧ looksLikePhone "555-123-4567" = true
    ∧ looksLikeEmail "555-123-4567" = false
    ∧ looksLikeSSN "555-123-4567" = false
    ∧ maskValue "phone" (.vstr "555-123-4567") = .vstr "*55-*23-4*67"
    ∧ "*55-*23-4*67" ≠ "***-***-**67" := by decide

/-! ## Masker priority (C6) -/

theorem splitAtFirst_mem (ch : Char) :
    ∀ l p, splitAtFirst ch l = some p → ch ∈ l := by
  intro l
  induction l with
  | nil => intro p h; cases h
  | cons c rest ih =>
    intro p h
    rw [splitAtFirst] at h
    by_cases hc : c = ch
    · exact hc ▸ List.mem_cons_self _ _
    · rw [if_neg hc] at h
      cases hsp : splitAtFirst ch rest with
      | none => rw [hsp] at h; cases h
      | some q => exact List.mem_cons_of_mem _ (ih q hsp)

/-- An SSN-shaped value consists only of digits and hyphens. -/
theorem ssn_chars (s : String) (h : looksLikeSSN s = true) :
    s.data.all (fun c => isDigitCh c || decide (c = '-')) = true := by
  rw [looksLikeSSN] at h
  split at h
  next a b c h1 d e h2 f g hh i heq =>
    simp only [Bool.and_eq_true, decide_eq_true_eq] at h
    rw [heq]
    simp only [List.all_cons, List.all_nil, Bool.and_eq_true, Bool.or_eq_true,
      decide_eq_true_eq]
    tauto
  next => cases h

/-- The SSN and email shape patterns are disjoint: an SSN-shaped value
contains no `@`, which the email pattern requires. -/
theorem ssn_not_email (s : String) (h : looksLikeSSN s = true) : looksLikeEmail s = false := by
  cases hsp : splitAtFirst '@' s.data with
  | none => rw [looksLikeEmail, hsp]
  | some p =>
    exfalso
    have hat : '@' ∈ s.data := splitAtFirst_mem '@' s.data p hsp
    have hall := List.all_eq_true.1 (ssn_chars s h) _ hat
    exact absurd hall (by decide)

/-- C6: whenever the name signal or a shape signal fires, `maskValue`
applies exactly the masker given by the priority SSN pattern, then
email pattern, then phone pattern, then generic fallback (the source
tests email first, but the two patterns are disjoint, so the selection
coincides); in particular `987-65-4321` in column `notes` masks via the
SSN shape signal to `***-**-4321`. -/
theorem mask_priority_claim :
    (∀ col s,
      (shouldMaskByColumn col || looksLikeEmail s || looksLikePhone s || looksLikeSSN s) = true →
      maskValue col (.vstr s) = .vstr (selectMaskerSpec s))
    ∧ maskValue "notes" (.vstr "987-65-4321") = .vstr "***-**-4321" := by
  constructor
  · intro col s hsig
    by_cases hs : looksLikeSSN s = true
    · have he : looksLikeEmail s = false := ssn_not_email s hs
      simp [maskValue, selectMaskerSpec, hsig, hs, he]
    · have hs' : looksLikeSSN s = false := by simpa using hs
      by_cases he : looksLikeEmail s = true
      · simp [maskValue, selectMaskerSpec, hsig, hs', he]
      · have he' : looksLikeEmail s = false := by simpa using he
        by_cases hp : looksLikePhone s = true
        · simp [maskValue, selectMaskerSpec, hsig, hs', he', hp]
        · have hp' : looksLikePhone s = false := by simpa using hp
          have hcol : shouldMaskByColumn col = true := by
            simpa [hs', he', hp'] using hsig
          simp [maskValue, selectMaskerSpec, hsig, hs', he', hp', hcol]
  · decide

/-- Witness for C6: the Scenario E input fires the shape signal and is
routed by the stated priority. -/
theorem mask_priority_claim_witness :
    (shouldMaskByColumn "notes" || looksLikeEmail "987-65-4321" ||
      looksLikePhone "987-65-4321" || looksLikeSSN "987-65-4321") = true
    ∧ maskValue "notes" (.vstr "987-65-4321") = .vstr (selectMaskerSpec "987-65-4321") :=
  ⟨by decide, mask_priority_claim.1 "notes" "987-65-4321" (by decide)⟩

/-! ## Connection release (C8) -/

/-- C8 evaluated at the failing input: with the sqlite backend, when the
single driver call reports an error, the handler propagates the error
but the trace contains the open with no matching close — server.ts has
no try/finally around `db.all`, so `db.close()` on line 195 is skipped.
The postgres branch, by contrast, releases the client on its error path
(the `finally` of `withPgClient`). -/
theorem sqlite_release_bug :
    (runQuery envSqliteErr "SELECT * FROM safe_users_v").1 = .error "SQLITE_IOERR: disk I/O error"
    ∧ Ev.sqliteOpen ∈ (runQuery envSqliteErr "SELECT * FROM safe_users_v").2
    ∧ Ev.sqliteClose ∉ (runQuery envSqliteErr "SELECT * FROM safe_users_v").2
    ∧ (runQuery envPgErr "SELECT * FROM safe_users_v").1 = .error "connection terminated"
    ∧ Ev.pgConnect ∈ (runQuery envPgErr "SELECT * FROM safe_users_v").2
    ∧ Ev.pgEnd ∈ (runQuery envPgErr "SELECT * FROM safe_users_v").2 :=
  ⟨rfl, by decide, by decide, rfl, by decide, by decide⟩

/-! ## Result shape (C10) -/

theorem maskRow_keys (r : Row) : (maskRow r).map Prod.fst = r.map Prod.fst := by
  simp [maskRow]

/-- C10: masking preserves the result shape — one output row per input
row with the same column keys in the same order — and every successful
query response reports `rowsReturned` equal to the length of its
(masked) rows array. -/
theorem result_shape_preserved :
    (∀ r : Row, (maskRow r).map Prod.fst = r.map Prod.fst ∧ (maskRow r).length = r.length)
    ∧ (∀ rows : List Row, maskRows rows = rows.map maskRow ∧ (maskRows rows).length = rows.length)
    ∧ (∀ env sql items evs, runQuery env sql = (.ok items, evs) →
        ∃ src, items = [Content.jsonRows (maskRows src) (maskRows src).length]) := by
  refine ⟨fun r => ⟨maskRow_keys r, by simp [maskRow]⟩,
    fun rows => ⟨rfl, by simp [maskRows]⟩, ?_⟩
  intro env sql items evs h
  simp only [runQuery] at h
  split at h
  · simp at h
  · split at h
    · simp at h
    · split at h
      · split at h
        · simp at h
        · simp only [Prod.mk.injEq] at h
          obtain ⟨h1, _⟩ := h
          cases h1
          exact ⟨_, rfl⟩
      · split at h
        · split at h
          · simp at h
          · simp only [Prod.mk.injEq] at h
            obtain ⟨h1, _⟩ := h
            cases h1
            exact ⟨_, rfl⟩
        · simp at h

/-- Witness for C10: a successful sqlite query returning one row. -/
theorem result_shape_preserved_witness :
    ∃ src,
      [Content.jsonRows
        [[("id", Value.vnum 1), ("email", Value.vstr "j******e@e******.com")]] 1] =
      [Content.jsonRows (maskRows src) (maskRows src).length] :=
  result_shape_preserved.2.2 envQueryOk "SELECT id, email FROM safe_users_v" _ _ rfl

/-! ## Email masking (C5) -/

theorem splitAtFirst_not_mem (ch : Char) : ∀ l, ch ∉ l → splitAtFirst ch l = none := by
  intro l
  induction l with
  | nil => intro _; rfl
  | cons c rest ih =>
    intro hn
    have hc : ¬ c = ch := fun h => hn (h ▸ List.mem_cons_self _ _)
    rw [splitAtFirst, if_neg hc, ih (fun hm => hn (List.mem_cons_of_mem _ hm))]

theorem splitAtFirst_append (ch : Char) :
    ∀ u d, ch ∉ u → splitAtFirst ch (u ++ ch :: d) = some (u, d) := by
  intro u
  induction u with
  | nil => intro d _; simp [splitAtFirst]
  | cons c rest ih =>
    intro d hn
    have hc : ¬ c = ch := fun hc => hn (hc ▸ List.mem_cons_self _ _)
    rw [List.cons_append, splitAtFirst, if_neg hc,
      ih d (fun hm => hn (List.mem_cons_of_mem _ hm))]

theorem not_space_dotCls (c : Char) (h : isSpaceJS c = false) : isDotCls c = true := by
  simp only [isSpaceJS, decide_eq_false_iff_not] at h
  simp only [isDotCls, decide_eq_true_eq]
  omega

theorem dotAheadScan_eq :
    ∀ l : List Char, (∀ c ∈ l, isDotCls c = true) → dotAheadScan l = hasDotB l := by
  intro l
  induction l with
  | nil => intro _; rfl
  | cons c rest ih =>
    intro h
    have hc : isDotCls c = true := h c (List.mem_cons_self _ _)
    have hrest := fun x hx => h x (List.mem_cons_of_mem _ hx)
    simp [dotAheadScan, hasDotB, hc, ih hrest]

theorem maskDomainAux_spec :
    ∀ (l : List Char) (prev : Char), isDotCls prev = true →
      (∀ c ∈ l, isDotCls c = true) → maskDomainAux prev l = dMaskSpecAux l := by
  intro l
  induction l with
  | nil => intro prev _ _; rfl
  | cons c rest ih =>
    intro prev hp h
    have hc : isDotCls c = true := h c (List.mem_cons_self _ _)
    have hrest := fun x hx => h x (List.mem_cons_of_mem _ hx)
    rw [maskDomainAux, dMaskSpecAux, hp, hc, dotAheadScan_eq rest hrest, ih c hc hrest]
    simp

/-- On whitespace-free domains (as the email pattern guarantees), the
per-position replace of server.ts:96 coincides with the amended domain
rule. -/
theorem maskDomainStr_spec (d : List Char) (h : ∀ c ∈ d, isDotCls c = true) :
    maskDomainStr d = dMaskSpec d := by
  cases d with
  | nil => rfl
  | cons c rest =>
    rw [maskDomainStr, dMaskSpec,
      maskDomainAux_spec rest c (h c (List.mem_cons_self _ _))
        (fun x hx => h x (List.mem_cons_of_mem _ hx))]

theorem maskInterior_eq :
    ∀ l : List Char,
      maskInterior l = List.replicate (l.length - 1) '*' ++ l.drop (l.length - 1) := by
  intro l
  induction l with
  | nil => rfl
  | cons a rest ih =>
    cases rest with
    | nil => rfl
    | cons b t =>
      rw [maskInterior, ih]
      simp [List.length_cons, List.replicate_succ, Nat.succ_sub_one]

/-- Counterexample to C5 as stated: for `ab.cd@x.y.z` the claim
predicts the domain `*.*.z` (every character of each non-final label
masked, dot separators preserved), but the code outputs `x**.z`: the
first domain character survives the lookbehind and the non-final dot is
masked by the lookahead. -/
theorem email_domain_counterexample :
    looksLikeEmail "ab.cd@x.y.z" = true
    ∧ maskEmail "ab.cd@x.y.z" = "a***d@x**.z"
    ∧ "a***d@x**.z" ≠ "a***d@*.*.z" := by decide

/-- C5 (amended): for every `@`-split value of the email-pattern shape
(nonempty, `@`-free, whitespace-free local part and domain), the local
part keeps its first and last character with the interior masked (fully
masked when its length is ≤ 2) — as claimed — while in the domain the
first character and the tail from the last dot onward are preserved and
every other character, earlier dot separators included, is masked. -/
theorem email_mask_amended (u d : List Char)
    (hu : u ≠ []) (hd : d ≠ [])
    (huAt : '@' ∉ u) (hdAt : '@' ∉ d)
    (hdSp : ∀ c ∈ d, isSpaceJS c = false) :
    maskEmail (String.mk (u ++ '@' :: d)) = String.mk (uMaskSpec u ++ '@' :: dMaskSpec d) := by
  have hdDot : ∀ c ∈ d, isDotCls c = true := fun c hc => not_space_dotCls c (hdSp c hc)
  simp only [maskEmail, show (String.mk (u ++ '@' :: d)).data = u ++ '@' :: d from rfl,
    splitAtFirst_append '@' u d huAt, splitAtFirst_not_mem '@' d hdAt]
  rw [if_neg hd, maskDomainStr_spec d hdDot]
  by_cases hlen : u.length ≤ 2
  · rw [if_pos hlen, uMaskSpec.eq_def, if_pos hlen]
  · rw [if_neg hlen, uMaskSpec.eq_def, if_neg hlen]
    obtain ⟨c, rest, rfl⟩ : ∃ c rest, u = c :: rest := by
      cases u with
      | nil => exact absurd rfl hu
      | cons c rest => exact ⟨c, rest, rfl⟩
    have hr : 2 ≤ rest.length := by
      simp only [List.length_cons] at hlen; omega
    obtain ⟨m, hm⟩ : ∃ m, rest.length = m + 1 := ⟨rest.length - 1, by omega⟩
    simp [List.length_cons, hm, maskInterior_eq rest, Nat.succ_sub_one]

/-- Witness for the amended C5 at the Scenario A value. -/
theorem email_mask_amended_witness :
    maskEmail "john.doe@example.com" =
      String.mk (uMaskSpec "john.doe".data ++ '@' :: dMaskSpec "example.com".data) :=
  email_mask_amended "john.doe".data "example.com".data
    (by decide) (by decide) (by decide) (by decide) (by decide)

/-! ## Degraded explain output (C9) -/

theorem formatTree_generic : formatTree genericTree 0 = "- Select\n  - Scan" := by
  simp [formatTree, formatKids, genericTree, padFor, joinNL]

/-- Counterexample to C9 as stated: on a whitelisted SELECT the explain
response consists of exactly two plain text blocks — a beginner-mode
note and the two-line rendering — and carries no structured tree
payload, so the fixed degraded tree itself is not returned. -/
theorem explain_payload_counterexample :
    explainSafeHandler envExplain "SELECT * FROM safe_users_v" =
      .ok [.text beginnerNote, .text "- Select\n  - Scan"]
    ∧ [Content.text beginnerNote, Content.text "- Select\n  - Scan"].all isTextContent = true := by
  constructor
  · simp only [explainSafeHandler, formatTree_generic]
    rfl
  · decide

/-- C9 (amended): for every input passing both validation stages, the
explain handler builds exactly the fixed degraded tree
`{op:"Select", children:[{op:"Scan"}]}` with no estimates, and returns
a note block plus the two-line indented rendering `- Select` /
`␣␣- Scan` as text; the tree object itself is not part of the response
payload. -/
theorem explain_degraded_amended (env : Env) (sql : String)
    (h1 : assertSelectOnly env (jsTrim sql) = .ok ())
    (h2 : assertWhitelisted env (jsTrim sql) = .ok ()) :
    explainSafeHandler env sql = .ok [.text beginnerNote, .text "- Select\n  - Scan"]
    ∧ genericTree = PlanNode.mk "Select" none none [PlanNode.mk "Scan" none none []]
    ∧ formatTree genericTree 0 = "- Select\n  - Scan"
    ∧ [Content.text beginnerNote, Content.text "- Select\n  - Scan"].all isTextContent = true := by
  refine ⟨?_, rfl, formatTree_generic, by decide⟩
  simp only [explainSafeHandler, h1, h2, formatTree_generic]

/-- Witness for the amended C9 at a whitelisted SELECT. -/
theorem explain_degraded_amended_witness :
    assertSelectOnly envExplain (jsTrim "SELECT * FROM safe_users_v") = .ok ()
    ∧ assertWhitelisted envExplain (jsTrim "SELECT * FROM safe_users_v") = .ok ()
    ∧ explainSafeHandler envExplain "SELECT * FROM safe_users_v" =
        .ok [.text beginnerNote, .text "- Select\n  - Scan"] :=
  ⟨rfl, rfl,
   (explain_degraded_amended envExplain "SELECT * FROM safe_users_v" rfl rfl).1⟩

end SafeSql
